import Mathlib

/-!
# queuectl — verification of the job-lifecycle engine

Shallow embedding of `src/queuctl1/storage.py` and the per-job body of
`src/queuctl1/worker.py`.

Modelling conventions:
* The SQLite database is a `Store`: each table is a list of rows in rowid
  (insertion) order, exactly the order a full scan visits them.
* All persisted timestamps in the source are fixed-width ISO-8601 UTC strings
  (`YYYY-MM-DDTHH:MM:SSZ`); their lexicographic order coincides with
  chronological order, so they are modelled as `Nat` seconds, and the SQL
  string comparison `next_attempt_at <= ?` becomes `≤` on `Nat`.
* Each Python function that mutates the database becomes a function
  `Store → … → Store × result`.  A statement that SQLite would reject at
  runtime (a PRIMARY KEY conflict on INSERT) is modelled as an explicit
  error result; because the connection runs with `isolation_level=None`
  (autocommit) outside `BEGIN IMMEDIATE`, the statements already executed
  before the failing one keep their effect, and the model keeps it too.
* `claim_next_job` runs its SELECT and UPDATE inside one `BEGIN IMMEDIATE`
  transaction, so across workers it is atomic; it is modelled as one
  function application, and interleaving (for the concurrency claims) is at
  the granularity of whole store operations.
-/

namespace Queuectl

/-- The `state` column of the `jobs` table: `pending | processing | completed | failed`. -/
inductive JState where
  | pending
  | processing
  | completed
  | failed
deriving DecidableEq

/-- One row of the `jobs` table (columns of `CREATE TABLE jobs` in
`SCHEMA_STMTS`, `storage.py` lines 19-29). -/
structure Job where
  id : String
  command : String
  state : JState
  attempts : Nat
  max_retries : Nat
  created_at : Nat
  updated_at : Nat
  next_attempt_at : Option Nat
  last_error : Option String
deriving DecidableEq

/-- One row of the `dlq` table (`storage.py` lines 30-37). -/
structure DlqEntry where
  id : String
  command : String
  attempts : Nat
  max_retries : Nat
  failed_at : Nat
  last_error : Option String
deriving DecidableEq

/-- The database: the four tables, each as a list of rows in rowid
(insertion) order.  A `workers` row is `(pid, started_at, last_heartbeat)`. -/
structure Store where
  jobs : List Job
  dlq : List DlqEntry
  config : List (String × String)
  workers : List (Nat × Nat × Nat)
deriving DecidableEq

/-- `get_config` (`storage.py` 77-79): `SELECT value FROM config WHERE key=?`. -/
def get_config (s : Store) (key : String) : Option String :=
  (s.config.find? (fun kv => decide (kv.1 = key))).map (fun kv => kv.2)

/-- `set_config` (`storage.py` 82-88): upsert via `ON CONFLICT(key) DO UPDATE`. -/
def set_config (s : Store) (key value : String) : Store :=
  if s.config.any (fun kv => decide (kv.1 = key)) then
    { s with config := s.config.map (fun kv => if kv.1 = key then (kv.1, value) else kv) }
  else
    { s with config := s.config ++ [(key, value)] }

/-- `int(get_config(db, "default_max_retries") or 3)` (`storage.py` 96-98):
Python `or` replaces both a missing row and the empty string by `3`.
(`int` of a non-numeric string raises in Python; no claim exercises that,
and it is modelled as `getD 0`.) -/
def default_retries (s : Store) : Nat :=
  match get_config s "default_max_retries" with
  | none => 3
  | some v => if v = "" then 3 else v.toNat?.getD 0

/-- Python's `(error or "")[:500]` (`storage.py` 183, 195): the first 500
characters of the diagnostic string.  (Written over the character list so
the kernel can evaluate it on concrete inputs.) -/
def truncate500 (e : String) : String :=
  String.mk (e.data.take 500)

/-- Result of `enqueue`: the INSERT either succeeds or hits the `jobs`
PRIMARY KEY (`sqlite3.IntegrityError`, the spec's `DuplicateId`). -/
inductive EnqueueResult where
  | ok
  | duplicate_id
deriving DecidableEq

/-- `enqueue` (`storage.py` 93-104): one `INSERT INTO jobs` with
`state='pending'`, `attempts=0`, `created_at=updated_at=now`.  The only
uniqueness enforcement is the `jobs.id` PRIMARY KEY — the `dlq` table is
never consulted. -/
def enqueue (s : Store) (job_id command : String) (mr : Option Nat) (now : Nat) :
    Store × EnqueueResult :=
  let max_retries := match mr with
    | some m => m
    | none => default_retries s
  if s.jobs.any (fun k => decide (k.id = job_id)) then
    (s, EnqueueResult.duplicate_id)
  else
    ({ s with jobs := s.jobs ++
        [{ id := job_id, command := command, state := JState.pending, attempts := 0,
           max_retries := max_retries, created_at := now, updated_at := now,
           next_attempt_at := none, last_error := none }] },
     EnqueueResult.ok)

/-- The WHERE clause of `claim_next_job`'s SELECT (`storage.py` 127-128):
`state='pending' OR (state='failed' AND (next_attempt_at IS NULL OR
next_attempt_at <= now))`. -/
def eligible (now : Nat) (j : Job) : Bool :=
  if j.state = JState.pending then true
  else if j.state = JState.failed then
    match j.next_attempt_at with
    | none => true
    | some t => decide (t ≤ now)
  else false

/-- `ORDER BY created_at LIMIT 1` over a scan in rowid order: the first row
(in table order) among those with minimal `created_at`.  SQLite's ORDER BY
names no secondary key here, so ties on `created_at` are broken by the
scan order (rowid), not by `id`. -/
def pick_min : List Job → Option Job
  | [] => none
  | j :: rest =>
    match pick_min rest with
    | none => some j
    | some b => if b.created_at < j.created_at then some b else some j

/-- The per-row effect of `claim_next_job`'s UPDATE (`storage.py` 140-144):
`SET state='processing', updated_at=now WHERE id=? AND state!='processing'`. -/
def claim_upd (now : Nat) (job_id : String) (k : Job) : Job :=
  if k.id = job_id ∧ ¬ k.state = JState.processing then
    { k with state := JState.processing, updated_at := now }
  else k

/-- `claim_next_job` (`storage.py` 116-154).  Under `BEGIN IMMEDIATE`:
select one eligible row ordered by `created_at`; if none, return `none`
and leave the store unchanged; otherwise `UPDATE jobs SET
state='processing', updated_at=now WHERE id=? AND state!='processing'`,
commit, and re-select the full row by id. -/
def claim_next_job (s : Store) (now : Nat) : Option Job × Store :=
  match pick_min (s.jobs.filter (eligible now)) with
  | none => (none, s)
  | some p =>
    let jobs2 := s.jobs.map (claim_upd now p.id)
    (jobs2.find? (fun k => decide (k.id = p.id)), { s with jobs := jobs2 })

/-- `update_job_success` (`storage.py` 157-158): `UPDATE jobs SET
state='completed', updated_at=? WHERE id=?` — no guard on the current
state, no other column touched, no other table touched. -/
def update_job_success (s : Store) (job_id : String) (now : Nat) : Store :=
  { s with jobs := s.jobs.map (fun k =>
      if k.id = job_id then { k with state := JState.completed, updated_at := now } else k) }

/-- Result of `update_job_failure`: the returned string `"failed"` or
`"dead"`, or the `sqlite3.IntegrityError` that the `INSERT INTO dlq`
raises when the dlq already holds the id (the exception propagates, so
the function returns nothing; the jobs DELETE before it has already
taken effect in autocommit mode). -/
inductive FailResult where
  | failed
  | dead
  | dlq_insert_error
deriving DecidableEq

/-- The per-row effect of `update_job_failure`'s UPDATE (`storage.py`
193-196): `SET state='failed', attempts=?, next_attempt_at=?,
last_error=?, updated_at=? WHERE id=?` with `next_attempt_at = now +
backoff_base ^ new_attempts`. -/
def fail_upd (job_id : String) (new_attempts backoff_base : Nat) (error : String)
    (now : Nat) (k : Job) : Job :=
  if k.id = job_id then
    { k with state := JState.failed, attempts := new_attempts,
             next_attempt_at := some (now + backoff_base ^ new_attempts),
             last_error := some (truncate500 error), updated_at := now }
  else k

/-- `update_job_failure` (`storage.py` 161-197).  `new_attempts =
attempts + 1`; if it exceeds `max_retries`, delete the job row (when
present) and insert a dlq entry carrying `new_attempts - 1`, returning
`"dead"`; otherwise set `state='failed'`, `attempts=new_attempts`,
`next_attempt_at = now + backoff_base ^ new_attempts`,
`last_error = error[:500]`, `updated_at=now` and return `"failed"`. -/
def update_job_failure (s : Store) (job_id : String)
    (attempts max_retries backoff_base : Nat) (error : String) (now : Nat) :
    Store × FailResult :=
  let new_attempts := attempts + 1
  if max_retries < new_attempts then
    match s.jobs.find? (fun k => decide (k.id = job_id)) with
    | none => (s, FailResult.dead)
    | some row =>
      let s1 := { s with jobs := s.jobs.filter (fun k => decide (¬ k.id = job_id)) }
      if s.dlq.any (fun e => decide (e.id = job_id)) then
        (s1, FailResult.dlq_insert_error)
      else
        ({ s1 with dlq := s1.dlq ++
            [{ id := row.id, command := row.command, attempts := new_attempts - 1,
               max_retries := max_retries, failed_at := now,
               last_error := some (truncate500 error) }] },
         FailResult.dead)
  else
    ({ s with jobs := s.jobs.map (fail_upd job_id new_attempts backoff_base error now) },
     FailResult.failed)

/-- Result of `dlq_retry`: success, the `ValueError` raised when the id is
absent from the dlq (the spec's `NotFound`), or the `IntegrityError` the
`INSERT INTO jobs` raises when the id is also a live job (the DELETE
before it has already taken effect in autocommit mode). -/
inductive DlqRetryResult where
  | ok
  | not_found
  | duplicate_id
deriving DecidableEq

/-- `dlq_retry` (`storage.py` 208-223): read the dlq row (error when
absent), `DELETE FROM dlq WHERE id=?`, then insert a fresh pending job
with `attempts=0`, `created_at=updated_at=now`, `next_attempt_at=NULL`,
`last_error=NULL`, keeping `id`, `command`, `max_retries`. -/
def dlq_retry (s : Store) (job_id : String) (now : Nat) : Store × DlqRetryResult :=
  match s.dlq.find? (fun e => decide (e.id = job_id)) with
  | none => (s, DlqRetryResult.not_found)
  | some e =>
    let s1 := { s with dlq := s.dlq.filter (fun x => decide (¬ x.id = job_id)) }
    if s.jobs.any (fun k => decide (k.id = job_id)) then
      (s1, DlqRetryResult.duplicate_id)
    else
      ({ s1 with jobs := s1.jobs ++
          [{ id := e.id, command := e.command, state := JState.pending, attempts := 0,
             max_retries := e.max_retries, created_at := now, updated_at := now,
             next_attempt_at := none, last_error := none }] },
       DlqRetryResult.ok)

/-! ## The schema statements of `SCHEMA_STMTS` (`storage.py` 17-47)

`init` executes these verbatim.  The four CREATE TABLE statements are
embedded as the exact strings of the source (triple-quoted in Python, so the
newlines and indentation are part of the statement).  A tiny model of the
one piece of SQLite's CREATE TABLE grammar that matters here checks the
parenthesised column list: SQLite requires `( column-def , ... , column-def )`
with no empty component, so a trailing comma before `)` is a syntax error
and the statement raises `sqlite3.OperationalError`. -/

/-- The `CREATE TABLE jobs` statement of `SCHEMA_STMTS`, verbatim
(`storage.py` 19-29).  Note the comma after `last_error TEXT`. -/
def jobs_table_sql : String :=
  "CREATE TABLE IF NOT EXISTS jobs (\n        id TEXT PRIMARY KEY,\n        command TEXT NOT NULL,\n        state TEXT NOT NULL,\n        attempts INTEGER NOT NULL DEFAULT 0,\n        max_retries INTEGER NOT NULL DEFAULT 3,\n        created_at TEXT NOT NULL,\n        updated_at TEXT NOT NULL,\n        next_attempt_at TEXT,\n        last_error TEXT,\n    )"

/-- The `CREATE TABLE dlq` statement of `SCHEMA_STMTS`, verbatim
(`storage.py` 30-37). -/
def dlq_table_sql : String :=
  "CREATE TABLE IF NOT EXISTS dlq (\n        id TEXT PRIMARY KEY,\n        command TEXT NOT NULL,\n        attempts INTEGER NOT NULL,\n        max_retries INTEGER NOT NULL,\n        failed_at TEXT NOT NULL,\n        last_error TEXT\n    )"

/-- The `CREATE TABLE workers` statement of `SCHEMA_STMTS`, verbatim
(`storage.py` 38-42). -/
def workers_table_sql : String :=
  "CREATE TABLE IF NOT EXISTS workers (\n        pid INTEGER PRIMARY KEY,\n        started_at TEXT NOT NULL,\n        last_heartbeat TEXT NOT NULL\n    )"

/-- The `CREATE TABLE config` statement of `SCHEMA_STMTS`, verbatim
(`storage.py` 43-47). -/
def config_table_sql : String :=
  "CREATE TABLE IF NOT EXISTS config (\n        key TEXT PRIMARY KEY,\n        value TEXT NOT NULL\n    )"

/-- The characters strictly between the first `(` and the last `)`. -/
def inner_parens (cs : List Char) : List Char :=
  (((cs.dropWhile (fun c => c != '(')).drop 1).reverse.dropWhile
      (fun c => c != ')')).drop 1 |>.reverse

/-- Split a character list at every comma.  (None of the four statements
nests parentheses inside the column list, so top-level and plain splitting
coincide.) -/
def split_commas : List Char → List (List Char)
  | [] => [[]]
  | c :: rest =>
    let r := split_commas rest
    if c = ',' then [] :: r
    else
      match r with
      | [] => [[c]]
      | h :: t => (c :: h) :: t

/-- A column-list component is acceptable to SQLite's grammar only if it
holds at least one non-whitespace character (an empty component — e.g. the
one a trailing comma leaves before `)` — is a syntax error). -/
def component_ok (cs : List Char) : Bool :=
  cs.any (fun c => !c.isWhitespace)

/-- Whether SQLite's CREATE TABLE grammar accepts the statement's
parenthesised column list: every comma-separated component is non-empty. -/
def column_list_ok (sql : String) : Bool :=
  (split_commas (inner_parens sql.toList)).all component_ok

/-- The first whitespace-delimited token of a component: the column name. -/
def first_token (cs : List Char) : String :=
  String.mk ((cs.dropWhile Char.isWhitespace).takeWhile (fun c => !c.isWhitespace))

/-- The column names a CREATE TABLE statement declares. -/
def table_columns (sql : String) : List String :=
  (split_commas (inner_parens sql.toList)).map first_token

/-! ## The worker's per-job body (`worker.py` 54-89)

After `claim_next_job` returns a row, the worker runs the command, then —
still before looking at the exit code — executes
`UPDATE jobs SET started_at=?, duration_ms=?, updated_at=? WHERE id=?`.
`started_at` and `duration_ms` are not columns of the `jobs` table, so
SQLite raises `sqlite3.OperationalError("no such column: started_at")`;
the broad `except Exception` catches it and calls `update_job_failure`
with `repr` of the exception.  Only if that UPDATE had succeeded would the
exit code be inspected. -/

/-- The columns the worker's timing UPDATE assigns (`worker.py` 62-65). -/
def worker_timing_update_columns : List String :=
  ["started_at", "duration_ms", "updated_at"]

/-- Whether the worker's timing UPDATE names only columns that the `jobs`
schema declares (as `table_columns` reads them off `jobs_table_sql`). -/
def timing_update_ok : Bool :=
  worker_timing_update_columns.all (fun c => (table_columns jobs_table_sql).contains c)

/-- Which branch of the worker's try/except body ran for one claimed job. -/
inductive HandlerPath where
  | success
  | failure_update
deriving DecidableEq

/-- Stand-in for Python's `repr` of the `OperationalError` that the timing
UPDATE raises; the text matters to no claim, only that it is what the
worker hands to `update_job_failure` as the error. -/
def timing_update_error : String :=
  "OperationalError: no such column: started_at"

/-- The worker's handling of one claimed job (`worker.py` 54-86), given the
Runner's exit code.  The `try` body executes the timing UPDATE before the
exit-code test; when that UPDATE raises (it does, because the schema lacks
its columns — `timing_update_ok` is false) the `except` branch calls
`update_job_failure` with the exception text.  The then-branch below models
the source's exit-code dispatch for completeness; it is unreachable while
the schema is what `SCHEMA_STMTS` declares.  (`backoff_base` is
`int(get_config(db, "backoff_base") or 2)` at the call sites.) -/
def handle_claimed_job (s : Store) (job : Job) (exit_code : Int)
    (backoff_base : Nat) (error_text : String) (now : Nat) : Store × HandlerPath :=
  if timing_update_ok then
    if exit_code = 0 then
      (update_job_success s job.id now, HandlerPath.success)
    else
      ((update_job_failure s job.id job.attempts job.max_retries backoff_base error_text now).1,
       HandlerPath.failure_update)
  else
    ((update_job_failure s job.id job.attempts job.max_retries backoff_base
        timing_update_error now).1,
     HandlerPath.failure_update)

/-! ## Helper lemmas -/

theorem eligible_not_processing {now : Nat} {j : Job} (h : eligible now j = true) :
    ¬ j.state = JState.processing := by
  intro hs
  simp [eligible, hs] at h

theorem eligible_pending_or_failed {now : Nat} {j : Job} (h : eligible now j = true) :
    j.state = JState.pending ∨ j.state = JState.failed := by
  by_cases hp : j.state = JState.pending
  · exact Or.inl hp
  · by_cases hf : j.state = JState.failed
    · exact Or.inr hf
    · simp [eligible, hp, hf] at h

theorem eligible_cooldown {now : Nat} {j : Job} (h : eligible now j = true)
    (hs : j.state = JState.failed) {t : Nat} (ht : j.next_attempt_at = some t) :
    t ≤ now := by
  simp [eligible, hs, ht] at h
  exact h

theorem pick_min_eq_none {l : List Job} : pick_min l = none ↔ l = [] := by
  cases l with
  | nil => simp [pick_min]
  | cons j rest =>
    apply iff_of_false _ (by simp)
    cases hpm : pick_min rest with
    | none => simp [pick_min, hpm]
    | some b =>
      simp only [pick_min, hpm]
      split <;> simp

theorem pick_min_mem {l : List Job} {r : Job} (h : pick_min l = some r) : r ∈ l := by
  induction l with
  | nil => simp [pick_min] at h
  | cons j rest ih =>
    cases hpm : pick_min rest with
    | none =>
      simp only [pick_min, hpm] at h
      injection h with h2
      subst h2
      exact List.mem_cons_self _ _
    | some b =>
      simp only [pick_min, hpm] at h
      by_cases hc : b.created_at < j.created_at
      · rw [if_pos hc] at h
        injection h with h2
        subst h2
        exact List.mem_cons_of_mem _ (ih hpm)
      · rw [if_neg hc] at h
        injection h with h2
        subst h2
        exact List.mem_cons_self _ _

theorem pick_min_le {l : List Job} :
    ∀ {r : Job}, pick_min l = some r → ∀ k ∈ l, r.created_at ≤ k.created_at := by
  induction l with
  | nil => intro r h; simp [pick_min] at h
  | cons j rest ih =>
    intro r h k hk
    cases hpm : pick_min rest with
    | none =>
      have hrest : rest = [] := pick_min_eq_none.mp hpm
      subst hrest
      simp only [pick_min] at h
      injection h with h2
      subst h2
      rcases List.mem_cons.mp hk with h3 | h3
      · subst h3; exact Nat.le_refl _
      · cases h3
    | some b =>
      simp only [pick_min, hpm] at h
      by_cases hc : b.created_at < j.created_at
      · rw [if_pos hc] at h
        injection h with h2
        subst h2
        rcases List.mem_cons.mp hk with h3 | h3
        · subst h3; exact Nat.le_of_lt hc
        · exact ih hpm k h3
      · rw [if_neg hc] at h
        injection h with h2
        subst h2
        rcases List.mem_cons.mp hk with h3 | h3
        · subst h3; exact Nat.le_refl _
        · exact Nat.le_trans (Nat.le_of_not_lt hc) (ih hpm k h3)

theorem pick_min_isSome {l : List Job} {x : Job} (hx : x ∈ l) :
    ∃ r, pick_min l = some r := by
  cases hpm : pick_min l with
  | none =>
    rw [pick_min_eq_none.mp hpm] at hx
    cases hx
  | some r => exact ⟨r, rfl⟩

theorem pick_min_stable {l1 l2 : List Job} {a r : Job}
    (h : pick_min (l1 ++ a :: l2) = some r) (hr1 : r ∉ l1) (hra : ¬ r = a) :
    r.created_at < a.created_at := by
  induction l1 with
  | nil =>
    simp only [List.nil_append] at h
    cases hpm : pick_min l2 with
    | none =>
      simp only [pick_min, hpm] at h
      injection h with h2
      exact absurd h2.symm hra
    | some b =>
      simp only [pick_min, hpm] at h
      by_cases hc : b.created_at < a.created_at
      · rw [if_pos hc] at h
        injection h with h2
        subst h2
        exact hc
      · rw [if_neg hc] at h
        injection h with h2
        exact absurd h2.symm hra
  | cons c t ih =>
    have hrc : ¬ r = c := fun he => hr1 (he ▸ List.mem_cons_self c t)
    have hrt : r ∉ t := fun he => hr1 (List.mem_cons_of_mem _ he)
    rw [List.cons_append] at h
    cases hpm : pick_min (t ++ a :: l2) with
    | none =>
      have := pick_min_eq_none.mp hpm
      simp at this
    | some b =>
      simp only [pick_min, hpm] at h
      by_cases hc : b.created_at < c.created_at
      · rw [if_pos hc] at h
        injection h with h2
        subst h2
        exact ih hpm hrt
      · rw [if_neg hc] at h
        injection h with h2
        exact absurd h2.symm hrc

theorem find?_id_of_nodup {l : List Job} {p : Job}
    (hnd : (l.map Job.id).Nodup) (hp : p ∈ l) :
    l.find? (fun k => decide (k.id = p.id)) = some p := by
  induction l with
  | nil => cases hp
  | cons j rest ih =>
    rw [List.map_cons, List.nodup_cons] at hnd
    rcases List.mem_cons.mp hp with h | h
    · subst h
      exact List.find?_cons_of_pos _ (by simp)
    · have hj : ¬ j.id = p.id := by
        intro he
        exact hnd.1 (he ▸ List.mem_map_of_mem Job.id h)
      rw [List.find?_cons_of_neg _ (by simp [hj])]
      exact ih hnd.2 h

theorem mem_id_eq_of_nodup {l : List Job} {p q : Job}
    (hnd : (l.map Job.id).Nodup) (hp : p ∈ l) (hq : q ∈ l) (hid : p.id = q.id) :
    p = q := by
  have h1 := find?_id_of_nodup hnd hp
  have h2 := find?_id_of_nodup hnd hq
  rw [hid] at h1
  rw [h1] at h2
  injection h2

theorem find?_map_pres_id (l : List Job) (f : Job → Job)
    (hf : ∀ k, (f k).id = k.id) (i : String) :
    (l.map f).find? (fun k => decide (k.id = i)) =
      (l.find? (fun k => decide (k.id = i))).map f := by
  induction l with
  | nil => simp
  | cons j rest ih =>
    by_cases hj : j.id = i
    · rw [List.map_cons, List.find?_cons_of_pos _ (by simp [hf, hj]),
        List.find?_cons_of_pos _ (by simp [hj])]
      rfl
    · rw [List.map_cons, List.find?_cons_of_neg _ (by simp [hf, hj]),
        List.find?_cons_of_neg _ (by simp [hj])]
      exact ih

theorem claim_upd_id (now : Nat) (job_id : String) (k : Job) :
    (claim_upd now job_id k).id = k.id := by
  rw [claim_upd]
  split <;> rfl

/-- With distinct job ids, the claim of an eligible row `p` returns exactly
the updated row and the store whose only change is that row. -/
theorem claim_next_job_eq {s : Store} {now : Nat} {p : Job}
    (hnd : (s.jobs.map Job.id).Nodup)
    (hpm : pick_min (s.jobs.filter (eligible now)) = some p) :
    claim_next_job s now =
      (some { p with state := JState.processing, updated_at := now },
       { s with jobs := s.jobs.map (claim_upd now p.id) }) := by
  have hpf : p ∈ s.jobs.filter (eligible now) := pick_min_mem hpm
  have hpj : p ∈ s.jobs := (List.mem_filter.mp hpf).1
  have hpe : eligible now p = true := (List.mem_filter.mp hpf).2
  have hupd : claim_upd now p.id p =
      { p with state := JState.processing, updated_at := now } := by
    rw [claim_upd, if_pos ⟨rfl, eligible_not_processing hpe⟩]
  have hfind : (s.jobs.map (claim_upd now p.id)).find? (fun k => decide (k.id = p.id)) =
      some (claim_upd now p.id p) := by
    rw [find?_map_pres_id _ _ (claim_upd_id now p.id), find?_id_of_nodup hnd hpj]
    rfl
  simp only [claim_next_job, hpm, hfind, hupd]

theorem claim_next_job_none {s : Store} {now : Nat}
    (h : ∀ k ∈ s.jobs, eligible now k = false) :
    claim_next_job s now = (none, s) := by
  have hf : s.jobs.filter (eligible now) = [] := by
    rw [List.filter_eq_nil_iff]
    intro a ha
    simp [h a ha]
  simp only [claim_next_job, hf, pick_min]

/-! ## Claim C10 — `update_job_success` is unconditional and frame-preserving -/

/-- C10: for every id present in the Job table, `update_job_success` sets
that job's state to completed and its updated_at to now unconditionally —
with no precondition on the current state (the spec's "job is in
processing" is not enforced) — and leaves the job's other fields, every
other job, and the dlq, config and workers tables unchanged. -/
theorem update_job_success_unconditional (s : Store) (job_id : String) (now : Nat)
    (j : Job) (hj : j ∈ s.jobs) (hid : j.id = job_id) :
    ({ j with state := JState.completed, updated_at := now } ∈
        (update_job_success s job_id now).jobs)
    ∧ (∀ k ∈ s.jobs, ¬ k.id = job_id → k ∈ (update_job_success s job_id now).jobs)
    ∧ (update_job_success s job_id now).jobs.length = s.jobs.length
    ∧ (update_job_success s job_id now).dlq = s.dlq
    ∧ (update_job_success s job_id now).config = s.config
    ∧ (update_job_success s job_id now).workers = s.workers := by
  refine ⟨?_, ?_, ?_, rfl, rfl, rfl⟩
  · have : (fun k => if k.id = job_id then
        { k with state := JState.completed, updated_at := now } else k) j =
        { j with state := JState.completed, updated_at := now } := by
      simp [hid]
    exact this ▸ List.mem_map_of_mem _ hj
  · intro k hk hne
    have : (fun k => if k.id = job_id then
        { k with state := JState.completed, updated_at := now } else k) k = k := by
      simp [hne]
    exact this ▸ List.mem_map_of_mem _ hk
  · exact List.length_map _ _

/-- A completed job the worker never claimed: `update_job_success` flips it
to completed anyway (the processing precondition is not enforced). -/
def c10_job : Job :=
  { id := "x", command := "echo hi", state := JState.pending, attempts := 0,
    max_retries := 3, created_at := 0, updated_at := 0,
    next_attempt_at := none, last_error := none }

def c10_store : Store := { jobs := [c10_job], dlq := [], config := [], workers := [] }

/-- Witness for C10 at a concrete input: a job that is pending, not
processing, is completed by `update_job_success` all the same. -/
theorem update_job_success_unconditional_witness :
    { c10_job with state := JState.completed, updated_at := 9 } ∈
      (update_job_success c10_store "x" 9).jobs :=
  (update_job_success_unconditional c10_store "x" 9 c10_job (by decide) rfl).1

/-! ## Claim C2 — eligibility of `claim_next_job` -/

/-- C2: `claim_next_job` returns a job only if some row of the Job table
was eligible — pending, or failed with `next_attempt_at` null or `≤ now` —
and the returned row is that row with state set to processing and
updated_at set to now, present in the updated store; in particular a
failed job with `next_attempt_at > now` is never the row returned, and
when no row is eligible the call returns none and leaves the store
unchanged.  (The id-nodup hypothesis is the `jobs.id` PRIMARY KEY.) -/
theorem claim_next_job_eligibility (s : Store) (now : Nat)
    (hnd : (s.jobs.map Job.id).Nodup) :
    (∀ j s2, claim_next_job s now = (some j, s2) →
      ∃ p, p ∈ s.jobs ∧ eligible now p = true ∧
        (p.state = JState.pending ∨ p.state = JState.failed) ∧
        (∀ t, p.state = JState.failed → p.next_attempt_at = some t → t ≤ now) ∧
        j = { p with state := JState.processing, updated_at := now } ∧
        j ∈ s2.jobs)
    ∧ ((∀ k ∈ s.jobs, eligible now k = false) → claim_next_job s now = (none, s)) := by
  constructor
  · intro j s2 h
    cases hpm : pick_min (s.jobs.filter (eligible now)) with
    | none =>
      have : claim_next_job s now = (none, s) := by
        simp only [claim_next_job, hpm]
      rw [this] at h
      exact absurd (congrArg Prod.fst h) (by simp)
    | some p =>
      have heq := claim_next_job_eq hnd hpm
      rw [heq] at h
      have hpf : p ∈ s.jobs.filter (eligible now) := pick_min_mem hpm
      have hpj : p ∈ s.jobs := (List.mem_filter.mp hpf).1
      have hpe : eligible now p = true := (List.mem_filter.mp hpf).2
      have hj : j = { p with state := JState.processing, updated_at := now } :=
        (Option.some.inj (congrArg Prod.fst h)).symm
      have hs2 : s2 = { s with jobs := s.jobs.map (claim_upd now p.id) } :=
        (congrArg Prod.snd h).symm
      refine ⟨p, hpj, hpe, eligible_pending_or_failed hpe, ?_, hj, ?_⟩
      · intro t hs ht
        exact eligible_cooldown hpe hs ht
      · have hupd : claim_upd now p.id p =
            { p with state := JState.processing, updated_at := now } := by
          rw [claim_upd, if_pos ⟨rfl, eligible_not_processing hpe⟩]
        rw [hj, hs2, ← hupd]
        exact List.mem_map_of_mem _ hpj
  · exact claim_next_job_none

/-- A store whose only job is failed and still cooling down at `now = 5`
(`next_attempt_at = 10`). -/
def c2_store : Store :=
  { jobs := [{ id := "f1", command := "false", state := JState.failed, attempts := 1,
               max_retries := 3, created_at := 0, updated_at := 2,
               next_attempt_at := some 10, last_error := some "exit=1" }],
    dlq := [], config := [], workers := [] }

/-- Witness for C2 at a concrete input: with the only job failed and in
cooldown (`next_attempt_at = 10 > now = 5`), `claim_next_job` returns none
and leaves the store unchanged. -/
theorem claim_next_job_eligibility_witness :
    claim_next_job c2_store 5 = (none, c2_store) :=
  (claim_next_job_eligibility c2_store 5 (by decide)).2 (by decide)

/-! ## Reduction lemmas for `update_job_failure` -/

theorem update_job_failure_failed_eq {s : Store} {job_id : String}
    {attempts max_retries backoff_base : Nat} {error : String} {now : Nat}
    (hle : ¬ max_retries < attempts + 1) :
    update_job_failure s job_id attempts max_retries backoff_base error now =
      ({ s with jobs := s.jobs.map (fail_upd job_id (attempts + 1) backoff_base error now) },
       FailResult.failed) := by
  simp only [update_job_failure, if_neg hle]

theorem update_job_failure_dead_eq {s : Store} {job_id : String}
    {attempts max_retries backoff_base : Nat} {error : String} {now : Nat} {row : Job}
    (hexh : max_retries < attempts + 1)
    (hrow : s.jobs.find? (fun k => decide (k.id = job_id)) = some row)
    (hany : s.dlq.any (fun e => decide (e.id = job_id)) = false) :
    update_job_failure s job_id attempts max_retries backoff_base error now =
      ({ s with jobs := s.jobs.filter (fun k => decide (¬ k.id = job_id)),
                dlq := s.dlq ++ [{ id := row.id, command := row.command, attempts := attempts,
                                   max_retries := max_retries, failed_at := now,
                                   last_error := some (truncate500 error) }] },
       FailResult.dead) := by
  simp only [update_job_failure, if_pos hexh, hrow, hany, Bool.false_eq_true, if_false,
    Nat.add_sub_cancel]

theorem update_job_failure_none_eq {s : Store} {job_id : String}
    {attempts max_retries backoff_base : Nat} {error : String} {now : Nat}
    (hexh : max_retries < attempts + 1)
    (hrow : s.jobs.find? (fun k => decide (k.id = job_id)) = none) :
    update_job_failure s job_id attempts max_retries backoff_base error now =
      (s, FailResult.dead) := by
  simp only [update_job_failure, if_pos hexh, hrow]

theorem update_job_failure_conflict_eq {s : Store} {job_id : String}
    {attempts max_retries backoff_base : Nat} {error : String} {now : Nat} {row : Job}
    (hexh : max_retries < attempts + 1)
    (hrow : s.jobs.find? (fun k => decide (k.id = job_id)) = some row)
    (hany : s.dlq.any (fun e => decide (e.id = job_id)) = true) :
    update_job_failure s job_id attempts max_retries backoff_base error now =
      ({ s with jobs := s.jobs.filter (fun k => decide (¬ k.id = job_id)) },
       FailResult.dlq_insert_error) := by
  simp only [update_job_failure, if_pos hexh, hrow, hany, if_true]

/-! ## Claim C4 — attempts recorded on a dead-letter entry -/

/-- The job of the dead-letter scenario: failed once already
(`attempts = 1`) with `max_retries = 1`; its next failure retires it. -/
def c4_job : Job :=
  { id := "x", command := "false", state := JState.failed, attempts := 1,
    max_retries := 1, created_at := 0, updated_at := 3,
    next_attempt_at := some 4, last_error := some "exit=1" }

def c4_store : Store := { jobs := [c4_job], dlq := [], config := [], workers := [] }

/-- C4 counterexample: with `max_retries = 1`, retiring the twice-failed
job `x` (current attempts 1, so `new_attempts = 2 > 1`) creates a
dead-letter entry whose `attempts` is `1`, not `max_retries + 1 = 2` —
the source inserts `new_attempts - 1` (`storage.py` 183). -/
theorem dead_letter_attempts_cex :
    (update_job_failure c4_store "x" 1 1 1 "exit=1" 9).2 = FailResult.dead
    ∧ (update_job_failure c4_store "x" 1 1 1 "exit=1" 9).1.dlq.map DlqEntry.attempts = [1]
    ∧ ¬ (update_job_failure c4_store "x" 1 1 1 "exit=1" 9).1.dlq.map DlqEntry.attempts
          = [1 + 1] := by decide

/-- C4 amended: whenever `update_job_failure` retires a job to the
dead-letter table (`new_attempts = attempts + 1 > max_retries`, the row
present, no dlq id conflict), the created entry has
`attempts = new_attempts - 1`, i.e. the `attempts` value passed in (which
is `max_retries`, not `max_retries + 1`, when the worker retires a job at
its first exhausted failure), and the job row is removed. -/
theorem update_job_failure_dead_letter_attempts (s : Store) (job_id : String)
    (attempts max_retries backoff_base : Nat) (error : String) (now : Nat) (row : Job)
    (hexh : max_retries < attempts + 1)
    (hrow : s.jobs.find? (fun k => decide (k.id = job_id)) = some row)
    (hnc : ∀ e ∈ s.dlq, ¬ e.id = job_id) :
    (update_job_failure s job_id attempts max_retries backoff_base error now).2
        = FailResult.dead
    ∧ (∃ e ∈ (update_job_failure s job_id attempts max_retries backoff_base error now).1.dlq,
        e.id = row.id ∧ e.command = row.command ∧ e.attempts = attempts
        ∧ e.max_retries = max_retries ∧ e.failed_at = now
        ∧ e.last_error = some (truncate500 error))
    ∧ (∀ k ∈ (update_job_failure s job_id attempts max_retries backoff_base error now).1.jobs,
        ¬ k.id = job_id) := by
  have hany : s.dlq.any (fun e => decide (e.id = job_id)) = false := by
    rw [List.any_eq_false]
    intro e he
    simp [hnc e he]
  rw [update_job_failure_dead_eq hexh hrow hany]
  refine ⟨rfl, ?_, ?_⟩
  · exact ⟨_, List.mem_append_right _ (List.mem_singleton_self _), rfl, rfl, rfl, rfl, rfl, rfl⟩
  · intro k hk
    have := (List.mem_filter.mp hk).2
    simpa using this

/-- Witness for C4 at the dead-letter scenario of the spec
(`max_retries = 1`, second failure): the entry's attempts is 1. -/
theorem update_job_failure_dead_letter_attempts_witness :
    (update_job_failure c4_store "x" 1 1 1 "exit=1" 9).2 = FailResult.dead
    ∧ (∃ e ∈ (update_job_failure c4_store "x" 1 1 1 "exit=1" 9).1.dlq,
        e.id = c4_job.id ∧ e.command = c4_job.command ∧ e.attempts = 1
        ∧ e.max_retries = 1 ∧ e.failed_at = 9
        ∧ e.last_error = some (truncate500 "exit=1"))
    ∧ (∀ k ∈ (update_job_failure c4_store "x" 1 1 1 "exit=1" 9).1.jobs, ¬ k.id = "x") :=
  update_job_failure_dead_letter_attempts c4_store "x" 1 1 1 "exit=1" 9 c4_job
    (by decide) (by decide) (by decide)

/-! ## Claim C5 — backoff scheduling and the failed/dead return value -/

/-- C5 amended: when `new_attempts = attempts + 1 ≤ max_retries`, the call
returns "failed" and sets the job's state to failed, attempts to
new_attempts, `next_attempt_at` to `now + backoff_base ^ new_attempts`
(exact in the integer-clock model; the spec's ±1 s covers the source's
second-granularity stamps), `last_error` to the error truncated to 500
characters and `updated_at` to now, leaving rows with other ids unchanged.
It returns "dead" iff `new_attempts > max_retries` AND the dead-letter
insert does not hit an existing dlq row (when the job row exists and the
dlq already holds the id, the INSERT raises instead of returning). -/
theorem update_job_failure_backoff (s : Store) (job_id : String)
    (attempts max_retries backoff_base : Nat) (error : String) (now : Nat) :
    (attempts + 1 ≤ max_retries →
      ((update_job_failure s job_id attempts max_retries backoff_base error now).2
          = FailResult.failed
      ∧ (∀ k ∈ s.jobs, k.id = job_id →
          { k with state := JState.failed, attempts := attempts + 1,
                   next_attempt_at := some (now + backoff_base ^ (attempts + 1)),
                   last_error := some (truncate500 error), updated_at := now } ∈
            (update_job_failure s job_id attempts max_retries backoff_base error now).1.jobs)
      ∧ (∀ k ∈ s.jobs, ¬ k.id = job_id →
          k ∈ (update_job_failure s job_id attempts max_retries backoff_base error now).1.jobs)))
    ∧ ((update_job_failure s job_id attempts max_retries backoff_base error now).2
          = FailResult.dead
        ↔ (max_retries < attempts + 1 ∧
           (s.jobs.find? (fun k => decide (k.id = job_id)) = none
            ∨ s.dlq.any (fun e => decide (e.id = job_id)) = false))) := by
  by_cases hexh : max_retries < attempts + 1
  · constructor
    · intro hle
      exact absurd hexh (Nat.not_lt.mpr hle)
    · cases hrow : s.jobs.find? (fun k => decide (k.id = job_id)) with
      | none =>
        rw [update_job_failure_none_eq hexh hrow]
        simp [hexh]
      | some row =>
        cases hany : s.dlq.any (fun e => decide (e.id = job_id)) with
        | false =>
          rw [update_job_failure_dead_eq hexh hrow hany]
          simp [hexh, hany]
        | true =>
          rw [update_job_failure_conflict_eq hexh hrow hany]
          simp [hexh, hrow, hany]
  · rw [update_job_failure_failed_eq hexh]
    refine ⟨fun _ => ⟨rfl, ?_, ?_⟩, by simp [hexh]⟩
    · intro k hk hkid
      have : fail_upd job_id (attempts + 1) backoff_base error now k =
          { k with state := JState.failed, attempts := attempts + 1,
                   next_attempt_at := some (now + backoff_base ^ (attempts + 1)),
                   last_error := some (truncate500 error), updated_at := now } := by
        rw [fail_upd, if_pos hkid]
      exact this ▸ List.mem_map_of_mem _ hk
    · intro k hk hne
      have : fail_upd job_id (attempts + 1) backoff_base error now k = k := by
        rw [fail_upd, if_neg hne]
      exact this ▸ List.mem_map_of_mem _ hk

/-- A store holding the same id both as a live job and as a dlq entry —
reachable because `enqueue` never consults the dlq (claim C6). -/
def c5_store : Store :=
  { jobs := [{ id := "x", command := "false", state := JState.failed, attempts := 1,
               max_retries := 1, created_at := 5, updated_at := 6,
               next_attempt_at := some 7, last_error := some "exit=1" }],
    dlq := [{ id := "x", command := "false", attempts := 1, max_retries := 1,
              failed_at := 3, last_error := some "exit=1" }],
    config := [], workers := [] }

/-- C5 counterexample: `new_attempts = 2 > max_retries = 1`, yet the call
does not return "dead" — the dead-letter INSERT hits the existing dlq row
for the id and raises after the job row was already deleted. -/
theorem update_job_failure_dead_iff_cex :
    1 < 1 + 1
    ∧ ¬ (update_job_failure c5_store "x" 1 1 1 "boom" 9).2 = FailResult.dead
    ∧ (update_job_failure c5_store "x" 1 1 1 "boom" 9).2 = FailResult.dlq_insert_error
    ∧ (update_job_failure c5_store "x" 1 1 1 "boom" 9).1.jobs = [] := by decide

/-! ## Claim C6 — enqueue duplicate detection ignores the dead-letter table -/

/-- C6 amended: `enqueue` fails with DuplicateId exactly when the id
already exists in the Job table — the dead-letter table is not checked —
and on that failure makes no state change; when the id is absent from Job
the insert succeeds (whatever the dlq holds), appending a fresh pending
row and leaving the dlq unchanged, so an id present in the dlq can come
to exist in both tables. -/
theorem enqueue_duplicate_checks_only_jobs (s : Store) (job_id command : String)
    (mr : Option Nat) (now : Nat) :
    ((enqueue s job_id command mr now).2 = EnqueueResult.duplicate_id ↔
      ∃ k ∈ s.jobs, k.id = job_id)
    ∧ ((enqueue s job_id command mr now).2 = EnqueueResult.duplicate_id →
        (enqueue s job_id command mr now).1 = s)
    ∧ ((∀ k ∈ s.jobs, ¬ k.id = job_id) →
        (enqueue s job_id command mr now).2 = EnqueueResult.ok
        ∧ (∃ j ∈ (enqueue s job_id command mr now).1.jobs,
            j.id = job_id ∧ j.command = command ∧ j.state = JState.pending ∧ j.attempts = 0
            ∧ j.created_at = now ∧ j.updated_at = now ∧ j.next_attempt_at = none
            ∧ j.last_error = none)
        ∧ (enqueue s job_id command mr now).1.dlq = s.dlq) := by
  cases hany : s.jobs.any (fun k => decide (k.id = job_id)) with
  | true =>
    have hdup : enqueue s job_id command mr now = (s, EnqueueResult.duplicate_id) := by
      simp only [enqueue, hany, if_true]
    rw [hdup]
    refine ⟨?_, fun _ => rfl, ?_⟩
    · simp only [true_iff]
      have := List.any_eq_true.mp hany
      simpa using this
    · intro hnone
      have := List.any_eq_true.mp hany
      rcases this with ⟨k, hk, hkid⟩
      exact absurd (of_decide_eq_true hkid) (hnone k hk)
  | false =>
    have hok : enqueue s job_id command mr now =
        ({ s with jobs := s.jobs ++
            [{ id := job_id, command := command, state := JState.pending, attempts := 0,
               max_retries := (match mr with | some m => m | none => default_retries s),
               created_at := now, updated_at := now,
               next_attempt_at := none, last_error := none }] },
         EnqueueResult.ok) := by
      simp only [enqueue, hany, Bool.false_eq_true, if_false]
    rw [hok]
    refine ⟨?_, ?_, ?_⟩
    · constructor
      · intro h
        cases h
      · intro h
        rcases h with ⟨k, hk, hkid⟩
        have := List.any_eq_false.mp hany k hk
        simp [hkid] at this
    · intro h
      cases h
    · intro _
      exact ⟨rfl,
        ⟨_, List.mem_append_right _ (List.mem_singleton_self _),
          rfl, rfl, rfl, rfl, rfl, rfl, rfl, rfl⟩, rfl⟩

/-- A store whose only trace of the id "x" is a dead-letter entry. -/
def c6_store : Store :=
  { jobs := [],
    dlq := [{ id := "x", command := "false", attempts := 2, max_retries := 1,
              failed_at := 3, last_error := some "exit=1" }],
    config := [], workers := [] }

/-- C6 counterexample: the id "x" exists in the Dead-Letter table, yet
`enqueue` succeeds instead of failing with DuplicateId, leaving "x"
present in both tables at once. -/
theorem enqueue_ignores_dlq_cex :
    (∃ e ∈ c6_store.dlq, e.id = "x")
    ∧ (enqueue c6_store "x" "echo hi" (some 1) 5).2 = EnqueueResult.ok
    ∧ ¬ (enqueue c6_store "x" "echo hi" (some 1) 5).2 = EnqueueResult.duplicate_id
    ∧ (∃ k ∈ (enqueue c6_store "x" "echo hi" (some 1) 5).1.jobs, k.id = "x")
    ∧ (∃ e ∈ (enqueue c6_store "x" "echo hi" (some 1) 5).1.dlq, e.id = "x") := by decide

/-! ## Claim C7 — `dlq_retry` -/

/-- C7 amended: `dlq_retry(id)` raises NotFound exactly when the id is
absent from the Dead-Letter table, and then changes nothing.  When the
entry is present the code always deletes it from the dlq; the promised
insert of a fresh pending job (attempts 0, `created_at=updated_at=now`,
null `next_attempt_at`/`last_error`, preserving id, command and
max_retries) happens only when the id is not also a live Job row — when
it is (a state `enqueue`'s missing dlq check makes reachable), the INSERT
raises DuplicateId after the delete, leaving the entry dropped and no job
inserted. -/
theorem dlq_retry_spec (s : Store) (job_id : String) (now : Nat) :
    ((dlq_retry s job_id now).2 = DlqRetryResult.not_found ↔ ∀ e ∈ s.dlq, ¬ e.id = job_id)
    ∧ ((dlq_retry s job_id now).2 = DlqRetryResult.not_found → (dlq_retry s job_id now).1 = s)
    ∧ (∀ e, s.dlq.find? (fun x => decide (x.id = job_id)) = some e →
        ((∀ x ∈ (dlq_retry s job_id now).1.dlq, ¬ x.id = job_id)
        ∧ (∀ x ∈ s.dlq, ¬ x.id = job_id → x ∈ (dlq_retry s job_id now).1.dlq)
        ∧ ((∀ k ∈ s.jobs, ¬ k.id = job_id) →
            (dlq_retry s job_id now).2 = DlqRetryResult.ok
            ∧ (∃ j ∈ (dlq_retry s job_id now).1.jobs,
                j.id = e.id ∧ j.command = e.command ∧ j.max_retries = e.max_retries
                ∧ j.state = JState.pending ∧ j.attempts = 0 ∧ j.created_at = now
                ∧ j.updated_at = now ∧ j.next_attempt_at = none ∧ j.last_error = none))
        ∧ ((∃ k ∈ s.jobs, k.id = job_id) →
            (dlq_retry s job_id now).2 = DlqRetryResult.duplicate_id
            ∧ (dlq_retry s job_id now).1.jobs = s.jobs))) := by
  cases hfind : s.dlq.find? (fun x => decide (x.id = job_id)) with
  | none =>
    have hnf : dlq_retry s job_id now = (s, DlqRetryResult.not_found) := by
      simp only [dlq_retry, hfind]
    rw [hnf]
    refine ⟨?_, fun _ => rfl, ?_⟩
    · simp only [true_iff]
      intro x hx
      have := List.find?_eq_none.mp hfind x hx
      simpa using this
    · intro e he
      exact Option.noConfusion he
  | some e0 =>
    have hmem : e0 ∈ s.dlq := List.mem_of_find?_eq_some hfind
    have hid : e0.id = job_id := by
      have := List.find?_some hfind
      simpa using this
    refine ⟨?_, ?_, ?_⟩
    · constructor
      · intro h
        cases hany : s.jobs.any (fun k => decide (k.id = job_id)) with
        | true => simp only [dlq_retry, hfind, hany, if_true] at h; cases h
        | false => simp only [dlq_retry, hfind, hany, Bool.false_eq_true, if_false] at h; cases h
      · intro h
        exact absurd hid (h e0 hmem)
    · intro h
      cases hany : s.jobs.any (fun k => decide (k.id = job_id)) with
      | true => simp only [dlq_retry, hfind, hany, if_true] at h; cases h
      | false => simp only [dlq_retry, hfind, hany, Bool.false_eq_true, if_false] at h; cases h
    · intro e he
      have he0 : e = e0 := by
        injection he with h2
        exact h2.symm
      subst he0
      cases hany : s.jobs.any (fun k => decide (k.id = job_id)) with
      | false =>
        have hok : dlq_retry s job_id now =
            ({ s with dlq := s.dlq.filter (fun x => decide (¬ x.id = job_id)),
                      jobs := s.jobs ++
                        [{ id := e.id, command := e.command, state := JState.pending,
                           attempts := 0, max_retries := e.max_retries, created_at := now,
                           updated_at := now, next_attempt_at := none, last_error := none }] },
             DlqRetryResult.ok) := by
          simp only [dlq_retry, hfind, hany, Bool.false_eq_true, if_false]
        rw [hok]
        refine ⟨?_, ?_, ?_, ?_⟩
        · intro x hx
          have := (List.mem_filter.mp hx).2
          simpa using this
        · intro x hx hne
          exact List.mem_filter.mpr ⟨hx, by simpa using hne⟩
        · intro _
          exact ⟨rfl, ⟨_, List.mem_append_right _ (List.mem_singleton_self _),
            rfl, rfl, rfl, rfl, rfl, rfl, rfl, rfl, rfl⟩⟩
        · intro ⟨k, hk, hkid⟩
          have := List.any_eq_false.mp hany k hk
          simp [hkid] at this
      | true =>
        have hdup : dlq_retry s job_id now =
            ({ s with dlq := s.dlq.filter (fun x => decide (¬ x.id = job_id)) },
             DlqRetryResult.duplicate_id) := by
          simp only [dlq_retry, hfind, hany, if_true]
        rw [hdup]
        refine ⟨?_, ?_, ?_, fun _ => ⟨rfl, rfl⟩⟩
        · intro x hx
          have := (List.mem_filter.mp hx).2
          simpa using this
        · intro x hx hne
          exact List.mem_filter.mpr ⟨hx, by simpa using hne⟩
        · intro hnone
          rcases List.any_eq_true.mp hany with ⟨k, hk, hkid⟩
          exact absurd (of_decide_eq_true hkid) (hnone k hk)

/-- A store holding the id "x" both as a live (re-enqueued) pending job
and as a dead-letter entry — reachable through `enqueue`'s missing dlq
check. -/
def c7_store : Store :=
  { jobs := [{ id := "x", command := "false", state := JState.pending, attempts := 0,
               max_retries := 1, created_at := 5, updated_at := 5,
               next_attempt_at := none, last_error := none }],
    dlq := [{ id := "x", command := "false", attempts := 1, max_retries := 1,
              failed_at := 3, last_error := some "exit=1" }],
    config := [], workers := [] }

/-- C7 counterexample: the id "x" is present in the Dead-Letter table, yet
`dlq_retry` does not perform the promised delete-and-insert: the entry is
deleted but the job INSERT hits the live row with the same id and raises,
so no fresh pending row (`created_at = now = 9`, attempts 0) appears. -/
theorem dlq_retry_partial_effect_cex :
    (∃ e ∈ c7_store.dlq, e.id = "x")
    ∧ (dlq_retry c7_store "x" 9).2 = DlqRetryResult.duplicate_id
    ∧ ¬ (dlq_retry c7_store "x" 9).2 = DlqRetryResult.ok
    ∧ (dlq_retry c7_store "x" 9).1.dlq = []
    ∧ (∀ j ∈ (dlq_retry c7_store "x" 9).1.jobs, ¬ j.created_at = 9) := by decide

/-! ## Claim C8 — claim order -/

theorem nodup_split_facts {l1 l2 l3 : List Job} {A B : Job}
    (hnd : ((l1 ++ A :: (l2 ++ B :: l3)).map Job.id).Nodup) :
    ¬ A.id = B.id ∧ B ∉ l1 := by
  rw [List.map_append, List.map_cons, List.map_append, List.map_cons] at hnd
  rcases List.nodup_append.mp hnd with ⟨_, hcons, hdisj⟩
  have hBid : B.id ∈ l2.map Job.id ++ B.id :: l3.map Job.id :=
    List.mem_append_right _ (List.mem_cons_self _ _)
  constructor
  · intro hAB
    exact (List.nodup_cons.mp hcons).1 (hAB ▸ hBid)
  · intro hB1
    exact hdisj (List.mem_map_of_mem Job.id hB1) (List.mem_cons_of_mem _ hBid)

/-- C8 amended: among eligible jobs, one with strictly smaller
`created_at` is claimed first; when `created_at` is equal, the tie is
broken by position in the table (rowid / insertion order) — the SELECT
orders by `created_at` alone, with no secondary ordering on id — so the
earlier-inserted row wins and the later row B is not the one returned. -/
theorem claim_next_job_fifo (s : Store) (now : Nat) (l1 l2 l3 : List Job) (A B : Job)
    (hnd : (s.jobs.map Job.id).Nodup)
    (hsplit : s.jobs = l1 ++ A :: (l2 ++ B :: l3))
    (heA : eligible now A = true) (heB : eligible now B = true)
    (hord : A.created_at < B.created_at ∨ A.created_at = B.created_at) :
    (∃ j s2, claim_next_job s now = (some j, s2))
    ∧ (∀ j s2, claim_next_job s now = (some j, s2) → ¬ j.id = B.id) := by
  have hA : A ∈ s.jobs := by
    rw [hsplit]
    exact List.mem_append_right _ (List.mem_cons_self _ _)
  have hB : B ∈ s.jobs := by
    rw [hsplit]
    exact List.mem_append_right _ (List.mem_cons_of_mem _
      (List.mem_append_right _ (List.mem_cons_self _ _)))
  have hsnd : ((l1 ++ A :: (l2 ++ B :: l3)).map Job.id).Nodup := hsplit ▸ hnd
  have hAf : A ∈ s.jobs.filter (eligible now) := List.mem_filter.mpr ⟨hA, heA⟩
  obtain ⟨p, hpm⟩ := pick_min_isSome hAf
  constructor
  · rw [claim_next_job_eq hnd hpm]
    exact ⟨_, _, rfl⟩
  · intro j s2 h hjB
    rw [claim_next_job_eq hnd hpm] at h
    have hj : j = { p with state := JState.processing, updated_at := now } :=
      (Option.some.inj (congrArg Prod.fst h)).symm
    have hpB : p.id = B.id := by
      rw [hj] at hjB
      exact hjB
    have hpf : p ∈ s.jobs.filter (eligible now) := pick_min_mem hpm
    have hpj : p ∈ s.jobs := (List.mem_filter.mp hpf).1
    have hpeqB : p = B := mem_id_eq_of_nodup hnd hpj hB hpB
    subst hpeqB
    rcases hord with hlt | heq
    · have := pick_min_le hpm A hAf
      exact absurd hlt (Nat.not_lt.mpr this)
    · have hfilter : s.jobs.filter (eligible now) =
          l1.filter (eligible now) ++ A ::
            (l2.filter (eligible now) ++ p :: l3.filter (eligible now)) := by
        rw [hsplit, List.filter_append, List.filter_cons_of_pos heA,
          List.filter_append, List.filter_cons_of_pos heB]
      rw [hfilter] at hpm
      rcases nodup_split_facts hsnd with ⟨hAB, hB1⟩
      have hBnotA : ¬ p = A := fun hc => hAB (by rw [hc])
      have hBnotl1 : p ∉ l1.filter (eligible now) :=
        fun hc => hB1 (List.mem_of_mem_filter hc)
      have := pick_min_stable hpm hBnotl1 hBnotA
      rw [heq] at this
      exact absurd this (Nat.lt_irrefl _)

/-- Two pending jobs with the same `created_at`: the one with the larger
id, "b", was inserted first (smaller rowid). -/
def c8_store : Store :=
  { jobs := [{ id := "b", command := "echo b", state := JState.pending, attempts := 0,
               max_retries := 3, created_at := 5, updated_at := 5,
               next_attempt_at := none, last_error := none },
             { id := "a", command := "echo a", state := JState.pending, attempts := 0,
               max_retries := 3, created_at := 5, updated_at := 5,
               next_attempt_at := none, last_error := none }],
    dlq := [], config := [], workers := [] }

/-- C8 counterexample: both jobs are eligible with equal `created_at`, and
the claim returns the job with id "b" although the secondary ordering on
id would pick "a" — the tie is decided by insertion order, not by id. -/
theorem claim_next_job_tie_cex :
    ((claim_next_job c8_store 9).1.map Job.id) = some "b"
    ∧ ¬ ((claim_next_job c8_store 9).1.map Job.id) = some "a"
    ∧ (∃ k ∈ c8_store.jobs, k.id = "a" ∧ k.created_at = 5 ∧ eligible 9 k = true)
    ∧ (∃ k ∈ c8_store.jobs, k.id = "b" ∧ k.created_at = 5 ∧ eligible 9 k = true) := by decide

/-- Jobs for the C8 witness: "a" is strictly older than "b". -/
def c8w_a : Job :=
  { id := "a", command := "echo a", state := JState.pending, attempts := 0,
    max_retries := 3, created_at := 3, updated_at := 3,
    next_attempt_at := none, last_error := none }

def c8w_b : Job :=
  { id := "b", command := "echo b", state := JState.pending, attempts := 0,
    max_retries := 3, created_at := 5, updated_at := 5,
    next_attempt_at := none, last_error := none }

def c8w_store : Store := { jobs := [c8w_a, c8w_b], dlq := [], config := [], workers := [] }

/-- Witness for C8 at a concrete input: with "a" strictly older than "b",
the claim exists and never returns "b". -/
theorem claim_next_job_fifo_witness :
    (∃ j s2, claim_next_job c8w_store 9 = (some j, s2))
    ∧ (∀ j s2, claim_next_job c8w_store 9 = (some j, s2) → ¬ j.id = c8w_b.id) :=
  claim_next_job_fifo c8w_store 9 [] [] [] c8w_a c8w_b (by decide) rfl
    (by decide) (by decide) (Or.inl (by decide))

/-! ## Claim C9 — `init` and the schema statements -/

/-- C9 (code bug): `init` executes the statements of `SCHEMA_STMTS` in
order; the very first CREATE TABLE — `jobs` — ends its column list with a
comma (`last_error TEXT,` directly before `)`), which SQLite's grammar
rejects, so `init` raises `sqlite3.OperationalError` on a fresh store:
it creates no tables and never reaches the config seeding.  The other
three CREATE TABLE statements are well-formed, and the `jobs` statement
becomes well-formed once its trailing comma is dropped. -/
theorem init_jobs_create_table_malformed :
    column_list_ok jobs_table_sql = false
    ∧ column_list_ok dlq_table_sql = true
    ∧ column_list_ok workers_table_sql = true
    ∧ column_list_ok config_table_sql = true
    ∧ (split_commas (inner_parens jobs_table_sql.toList)).length = 10
    ∧ component_ok ((split_commas (inner_parens jobs_table_sql.toList)).getLast!) = false := by
  decide

/-! ## Claim C3 — the worker's success path -/

/-- The happy-path job `j1` (`echo hi`) as the worker sees it right after
claiming it: state processing, attempts 0, default max_retries 3. -/
def c3_job : Job :=
  { id := "j1", command := "echo hi", state := JState.processing, attempts := 0,
    max_retries := 3, created_at := 0, updated_at := 1,
    next_attempt_at := none, last_error := none }

def c3_store : Store := { jobs := [c3_job], dlq := [], config := [], workers := [] }

/-- C3 (code bug): the worker's per-job body never reaches
`update_job_success`, whatever the exit code — the timing UPDATE it runs
first names the columns `started_at` and `duration_ms`, which the `jobs`
schema does not declare, so it raises and the broad `except` routes every
job through `update_job_failure`.  Concretely, the happy-path job `j1`
whose command exits 0 ends in state failed (and would be retried and
eventually dead-lettered), never completed. -/
theorem worker_success_path_unreachable (s : Store) (job : Job) (exit_code : Int)
    (backoff_base : Nat) (error_text : String) (now : Nat) :
    ((handle_claimed_job s job exit_code backoff_base error_text now).2
        = HandlerPath.failure_update)
    ∧ timing_update_ok = false
    ∧ ¬ "started_at" ∈ table_columns jobs_table_sql
    ∧ (handle_claimed_job c3_store c3_job 0 2 "" 5).1.jobs.map Job.state = [JState.failed]
    ∧ ¬ (handle_claimed_job c3_store c3_job 0 2 "" 5).1.jobs.map Job.state
          = [JState.completed] := by
  refine ⟨?_, by decide, by decide, by decide, by decide⟩
  have hok : timing_update_ok = false := by decide
  simp only [handle_claimed_job, hok, Bool.false_eq_true, if_false]

/-! ## Claim C1 — the multi-worker claim protocol

Interleaving model: `claim_next_job` runs under `BEGIN IMMEDIATE` (one
exclusive write transaction) and the outcome updates are single SQLite
statements, so a trace of a multi-worker run is a sequence of whole store
operations.  Each worker (`run_worker`, `worker.py` 42-89) alternates
between claiming and reporting the claimed row's outcome, passing the
claimed row's snapshot (`job["id"]`, `job["attempts"]`,
`job["max_retries"]`) to the update.  Heartbeats touch only the `workers`
table and are omitted — they cannot affect job rows. -/

/-- The multi-worker system: the shared store plus each worker's loop
state — the row its pending `claim_next_job` returned (`none` while
idle between jobs). -/
structure Sys where
  store : Store
  ws : List (Nat × Option Job)
deriving DecidableEq

/-- One store operation of some worker `pid`: a claim, or the report of
the claimed job's outcome (success, or failure with the backoff base read
from config and the derived error text). -/
inductive Act where
  | claim (pid now : Nat)
  | report_success (pid now : Nat)
  | report_failure (pid now backoff_base : Nat) (error : String)
deriving DecidableEq

/-- The loop state of worker `pid`. -/
def ws_get (ws : List (Nat × Option Job)) (pid : Nat) : Option (Option Job) :=
  (ws.find? (fun e => decide (e.1 = pid))).map (fun e => e.2)

/-- Updating worker `pid`'s loop state. -/
def ws_set (ws : List (Nat × Option Job)) (pid : Nat) (v : Option Job) :
    List (Nat × Option Job) :=
  ws.map (fun e => if e.1 = pid then (e.1, v) else e)

/-- One step of the system: the worker loop only claims while idle and
only reports the job it holds (`run_worker` handles one claimed job at a
time); any other action is not a step of the protocol. -/
def step (sys : Sys) : Act → Option Sys
  | Act.claim pid now =>
    match ws_get sys.ws pid with
    | some none =>
      some { store := (claim_next_job sys.store now).2,
             ws := ws_set sys.ws pid (claim_next_job sys.store now).1 }
    | _ => none
  | Act.report_success pid now =>
    match ws_get sys.ws pid with
    | some (some job) =>
      some { store := update_job_success sys.store job.id now,
             ws := ws_set sys.ws pid none }
    | _ => none
  | Act.report_failure pid now backoff_base error =>
    match ws_get sys.ws pid with
    | some (some job) =>
      some { store := (update_job_failure sys.store job.id job.attempts job.max_retries
                         backoff_base error now).1,
             ws := ws_set sys.ws pid none }
    | _ => none

/-- Running a trace of interleaved store operations. -/
def run_trace (sys : Sys) : List Act → Option Sys
  | [] => some sys
  | a :: tr =>
    match step sys a with
    | none => none
    | some sys2 => run_trace sys2 tr

/-- The no-duplicate-execution property at one instant: every held row is
`processing` in the store, and no two distinct workers hold rows with the
same job id. -/
def holders_ok (sys : Sys) : Prop :=
  (∀ e ∈ sys.ws, ∀ job : Job, e.2 = some job →
    ∃ r ∈ sys.store.jobs, r.id = job.id ∧ r.state = JState.processing)
  ∧ (∀ e1 ∈ sys.ws, ∀ e2 ∈ sys.ws, ∀ j1 j2 : Job,
      e1.2 = some j1 → e2.2 = some j2 → j1.id = j2.id → e1 = e2)

/-- The inductive invariant: distinct worker pids, distinct job ids (the
PRIMARY KEY), and `holders_ok`. -/
def sys_inv (sys : Sys) : Prop :=
  (sys.ws.map Prod.fst).Nodup ∧ (sys.store.jobs.map Job.id).Nodup ∧ holders_ok sys

/-- A start state: registered workers with distinct pids, all idle, over a
store whose job ids are distinct. -/
def sys_init (sys : Sys) : Prop :=
  (sys.ws.map Prod.fst).Nodup ∧ (sys.store.jobs.map Job.id).Nodup ∧
  (∀ e ∈ sys.ws, e.2 = none)

theorem sys_init_inv {sys : Sys} (h : sys_init sys) : sys_inv sys := by
  refine ⟨h.1, h.2.1, ?_, ?_⟩
  · intro e he job hj
    rw [h.2.2 e he] at hj
    cases hj
  · intro e1 he1 e2 he2 j1 j2 hj1 hj2 _
    rw [h.2.2 e1 he1] at hj1
    cases hj1

/-! ### Frame lemmas for the store operations -/

theorem map_id_pres {l : List Job} {f : Job → Job} (hf : ∀ k, (f k).id = k.id) :
    (l.map f).map Job.id = l.map Job.id := by
  induction l with
  | nil => rfl
  | cons j rest ih => simp [hf, ih]

theorem fail_upd_id (job_id : String) (na bb : Nat) (err : String) (now : Nat) (k : Job) :
    (fail_upd job_id na bb err now k).id = k.id := by
  rw [fail_upd]
  split <;> rfl

theorem claim_upd_processing {now : Nat} {job_id : String} {k : Job}
    (hk : k.state = JState.processing) : claim_upd now job_id k = k := by
  rw [claim_upd, if_neg]
  intro hc
  exact hc.2 hk

theorem update_job_success_ids (s : Store) (job_id : String) (now : Nat) :
    (update_job_success s job_id now).jobs.map Job.id = s.jobs.map Job.id := by
  apply map_id_pres
  intro k
  dsimp only
  split <;> rfl

theorem update_job_success_other {s : Store} {job_id : String} {now : Nat} {k : Job}
    (hk : k ∈ s.jobs) (hne : ¬ k.id = job_id) :
    k ∈ (update_job_success s job_id now).jobs := by
  have : (fun k : Job => if k.id = job_id then
      { k with state := JState.completed, updated_at := now } else k) k = k := by
    simp [hne]
  exact this ▸ List.mem_map_of_mem _ hk

theorem update_job_failure_other {s : Store} {job_id : String}
    {attempts max_retries backoff_base : Nat} {error : String} {now : Nat} {k : Job}
    (hk : k ∈ s.jobs) (hne : ¬ k.id = job_id) :
    k ∈ (update_job_failure s job_id attempts max_retries backoff_base error now).1.jobs := by
  by_cases hexh : max_retries < attempts + 1
  · cases hrow : s.jobs.find? (fun x => decide (x.id = job_id)) with
    | none =>
      rw [update_job_failure_none_eq hexh hrow]
      exact hk
    | some row =>
      cases hany : s.dlq.any (fun e => decide (e.id = job_id)) with
      | false =>
        rw [update_job_failure_dead_eq hexh hrow hany]
        exact List.mem_filter.mpr ⟨hk, by simpa using hne⟩
      | true =>
        rw [update_job_failure_conflict_eq hexh hrow hany]
        exact List.mem_filter.mpr ⟨hk, by simpa using hne⟩
  · rw [update_job_failure_failed_eq hexh]
    have : fail_upd job_id (attempts + 1) backoff_base error now k = k := by
      rw [fail_upd, if_neg hne]
    exact this ▸ List.mem_map_of_mem _ hk

theorem update_job_failure_nodup {s : Store} {job_id : String}
    {attempts max_retries backoff_base : Nat} {error : String} {now : Nat}
    (hnd : (s.jobs.map Job.id).Nodup) :
    (((update_job_failure s job_id attempts max_retries backoff_base error now).1.jobs).map
      Job.id).Nodup := by
  by_cases hexh : max_retries < attempts + 1
  · cases hrow : s.jobs.find? (fun x => decide (x.id = job_id)) with
    | none =>
      rw [update_job_failure_none_eq hexh hrow]
      exact hnd
    | some row =>
      cases hany : s.dlq.any (fun e => decide (e.id = job_id)) with
      | false =>
        rw [update_job_failure_dead_eq hexh hrow hany]
        exact hnd.sublist ((List.filter_sublist _).map Job.id)
      | true =>
        rw [update_job_failure_conflict_eq hexh hrow hany]
        exact hnd.sublist ((List.filter_sublist _).map Job.id)
  · rw [update_job_failure_failed_eq hexh]
    rw [map_id_pres (fail_upd_id job_id (attempts + 1) backoff_base error now)]
    exact hnd

theorem claim_next_job_ids (s : Store) (now : Nat) :
    ((claim_next_job s now).2.jobs.map Job.id) = s.jobs.map Job.id := by
  cases hpm : pick_min (s.jobs.filter (eligible now)) with
  | none => simp only [claim_next_job, hpm]
  | some p =>
    simp only [claim_next_job, hpm]
    exact map_id_pres (claim_upd_id now p.id)

theorem ws_get_mem {ws : List (Nat × Option Job)} {pid : Nat} {v : Option Job}
    (hg : ws_get ws pid = some v) : (pid, v) ∈ ws := by
  unfold ws_get at hg
  cases hf : ws.find? (fun e => decide (e.1 = pid)) with
  | none =>
    rw [hf] at hg
    cases hg
  | some e =>
    rw [hf] at hg
    have he : e ∈ ws := List.mem_of_find?_eq_some hf
    have hpid : e.1 = pid := by
      have := List.find?_some hf
      simpa using this
    have hv : e.2 = v := by injection hg
    rw [← hpid, ← hv]
    simpa using he

theorem ws_set_fst (ws : List (Nat × Option Job)) (pid : Nat) (v : Option Job) :
    (ws_set ws pid v).map Prod.fst = ws.map Prod.fst := by
  induction ws with
  | nil => rfl
  | cons e rest ih =>
    have hhead : (if e.1 = pid then (e.1, v) else e).1 = e.1 := by split <;> rfl
    show ((if e.1 = pid then (e.1, v) else e).1) :: (ws_set rest pid v).map Prod.fst
        = e.1 :: rest.map Prod.fst
    rw [hhead, ih]

theorem ws_set_mem {ws : List (Nat × Option Job)} {pid : Nat} {v : Option Job}
    {e2 : Nat × Option Job} (he : e2 ∈ ws_set ws pid v) :
    (e2.1 = pid ∧ e2.2 = v) ∨ (¬ e2.1 = pid ∧ e2 ∈ ws) := by
  unfold ws_set at he
  rcases List.mem_map.mp he with ⟨e, hew, heq⟩
  by_cases hp : e.1 = pid
  · rw [if_pos hp] at heq
    left
    rw [← heq]
    exact ⟨hp, rfl⟩
  · rw [if_neg hp] at heq
    right
    rw [← heq]
    exact ⟨hp, hew⟩

/-! ### Preservation of the invariant -/

theorem step_inv {sys sys2 : Sys} {a : Act} (hinv : sys_inv sys)
    (hstep : step sys a = some sys2) : sys_inv sys2 := by
  obtain ⟨hws, hjobs, hold, huniq⟩ := hinv
  cases a with
  | claim pid now =>
    cases hg : ws_get sys.ws pid with
    | none => simp [step, hg] at hstep
    | some v =>
      cases v with
      | some j0 => simp [step, hg] at hstep
      | none =>
        simp only [step, hg] at hstep
        injection hstep with h2
        subst h2
        cases hpm : pick_min (sys.store.jobs.filter (eligible now)) with
        | none =>
          have hcl : claim_next_job sys.store now = (none, sys.store) := by
            simp only [claim_next_job, hpm]
          rw [hcl]
          dsimp only
          refine ⟨?_, hjobs, ?_, ?_⟩
          · rw [ws_set_fst]
            exact hws
          · intro e he job hj
            rcases ws_set_mem he with ⟨hep, hev⟩ | ⟨hep, hew⟩
            · rw [hev] at hj
              cases hj
            · exact hold e hew job hj
          · intro e1 he1 e2 he2 j1 j2 hj1 hj2 hid
            rcases ws_set_mem he1 with ⟨hep1, hev1⟩ | ⟨hep1, hew1⟩
            · rw [hev1] at hj1
              cases hj1
            · rcases ws_set_mem he2 with ⟨hep2, hev2⟩ | ⟨hep2, hew2⟩
              · rw [hev2] at hj2
                cases hj2
              · exact huniq e1 hew1 e2 hew2 j1 j2 hj1 hj2 hid
        | some p =>
          have hcl := claim_next_job_eq hjobs hpm
          have hpf := pick_min_mem hpm
          have hpj : p ∈ sys.store.jobs := (List.mem_filter.mp hpf).1
          have hpe : eligible now p = true := (List.mem_filter.mp hpf).2
          have hpnp : ¬ p.state = JState.processing := eligible_not_processing hpe
          have hupd : claim_upd now p.id p =
              { p with state := JState.processing, updated_at := now } := by
            rw [claim_upd, if_pos ⟨rfl, hpnp⟩]
          rw [hcl]
          dsimp only
          refine ⟨?_, ?_, ?_, ?_⟩
          · rw [ws_set_fst]
            exact hws
          · rw [map_id_pres (claim_upd_id now p.id)]
            exact hjobs
          · intro e he job hj
            rcases ws_set_mem he with ⟨hep, hev⟩ | ⟨hep, hew⟩
            · rw [hev] at hj
              injection hj with hjob
              refine ⟨{ p with state := JState.processing, updated_at := now }, ?_, ?_, rfl⟩
              · rw [← hupd]
                exact List.mem_map_of_mem _ hpj
              · rw [← hjob]
            · obtain ⟨r, hr, hrid, hrs⟩ := hold e hew job hj
              refine ⟨r, ?_, hrid, hrs⟩
              have hmm := List.mem_map_of_mem (claim_upd now p.id) hr
              rw [claim_upd_processing hrs] at hmm
              exact hmm
          · intro e1 he1 e2 he2 j1 j2 hj1 hj2 hid
            rcases ws_set_mem he1 with ⟨hep1, hev1⟩ | ⟨hep1, hew1⟩
            · rcases ws_set_mem he2 with ⟨hep2, hev2⟩ | ⟨hep2, hew2⟩
              · cases e1 with
                | mk a1 b1 =>
                  cases e2 with
                  | mk a2 b2 =>
                    simp only at hep1 hev1 hep2 hev2
                    rw [hep1, hev1, hep2, hev2]
              · rw [hev1] at hj1
                injection hj1 with hjob1
                obtain ⟨r, hr, hrid, hrs⟩ := hold e2 hew2 j2 hj2
                have hrp : r.id = p.id := by rw [hrid, ← hid, ← hjob1]
                have hre : r = p := mem_id_eq_of_nodup hjobs hr hpj hrp
                rw [hre] at hrs
                exact absurd hrs hpnp
            · rcases ws_set_mem he2 with ⟨hep2, hev2⟩ | ⟨hep2, hew2⟩
              · rw [hev2] at hj2
                injection hj2 with hjob2
                obtain ⟨r, hr, hrid, hrs⟩ := hold e1 hew1 j1 hj1
                have hrp : r.id = p.id := by rw [hrid, hid, ← hjob2]
                have hre : r = p := mem_id_eq_of_nodup hjobs hr hpj hrp
                rw [hre] at hrs
                exact absurd hrs hpnp
              · exact huniq e1 hew1 e2 hew2 j1 j2 hj1 hj2 hid
  | report_success pid now =>
    cases hg : ws_get sys.ws pid with
    | none => simp [step, hg] at hstep
    | some v =>
      cases v with
      | none => simp [step, hg] at hstep
      | some job =>
        simp only [step, hg] at hstep
        injection hstep with h2
        subst h2
        have hpmem : (pid, some job) ∈ sys.ws := ws_get_mem hg
        refine ⟨?_, ?_, ?_, ?_⟩
        · rw [ws_set_fst]
          exact hws
        · rw [update_job_success_ids]
          exact hjobs
        · intro e he job2 hj
          rcases ws_set_mem he with ⟨hep, hev⟩ | ⟨hep, hew⟩
          · rw [hev] at hj
            cases hj
          · obtain ⟨r, hr, hrid, hrs⟩ := hold e hew job2 hj
            have hne : ¬ r.id = job.id := by
              intro hre
              have hj2 : job2.id = job.id := by rw [← hrid, hre]
              have heq := huniq e hew (pid, some job) hpmem job2 job hj rfl hj2
              exact hep (by rw [heq])
            exact ⟨r, update_job_success_other hr hne, hrid, hrs⟩
        · intro e1 he1 e2 he2 j1 j2 hj1 hj2 hid
          rcases ws_set_mem he1 with ⟨hep1, hev1⟩ | ⟨hep1, hew1⟩
          · rw [hev1] at hj1
            cases hj1
          · rcases ws_set_mem he2 with ⟨hep2, hev2⟩ | ⟨hep2, hew2⟩
            · rw [hev2] at hj2
              cases hj2
            · exact huniq e1 hew1 e2 hew2 j1 j2 hj1 hj2 hid
  | report_failure pid now backoff_base error =>
    cases hg : ws_get sys.ws pid with
    | none => simp [step, hg] at hstep
    | some v =>
      cases v with
      | none => simp [step, hg] at hstep
      | some job =>
        simp only [step, hg] at hstep
        injection hstep with h2
        subst h2
        have hpmem : (pid, some job) ∈ sys.ws := ws_get_mem hg
        refine ⟨?_, ?_, ?_, ?_⟩
        · rw [ws_set_fst]
          exact hws
        · exact update_job_failure_nodup hjobs
        · intro e he job2 hj
          rcases ws_set_mem he with ⟨hep, hev⟩ | ⟨hep, hew⟩
          · rw [hev] at hj
            cases hj
          · obtain ⟨r, hr, hrid, hrs⟩ := hold e hew job2 hj
            have hne : ¬ r.id = job.id := by
              intro hre
              have hj2 : job2.id = job.id := by rw [← hrid, hre]
              have heq := huniq e hew (pid, some job) hpmem job2 job hj rfl hj2
              exact hep (by rw [heq])
            exact ⟨r, update_job_failure_other hr hne, hrid, hrs⟩
        · intro e1 he1 e2 he2 j1 j2 hj1 hj2 hid
          rcases ws_set_mem he1 with ⟨hep1, hev1⟩ | ⟨hep1, hew1⟩
          · rw [hev1] at hj1
            cases hj1
          · rcases ws_set_mem he2 with ⟨hep2, hev2⟩ | ⟨hep2, hew2⟩
            · rw [hev2] at hj2
              cases hj2
            · exact huniq e1 hew1 e2 hew2 j1 j2 hj1 hj2 hid

theorem run_trace_inv {tr : List Act} :
    ∀ {sys sys2 : Sys}, sys_inv sys → run_trace sys tr = some sys2 → sys_inv sys2 := by
  induction tr with
  | nil =>
    intro sys sys2 hinv h
    rw [run_trace] at h
    injection h with h2
    exact h2 ▸ hinv
  | cons a rest ih =>
    intro sys sys2 hinv h
    cases hs : step sys a with
    | none =>
      simp only [run_trace, hs] at h
      exact Option.noConfusion h
    | some sysm =>
      simp only [run_trace, hs] at h
      exact ih (step_inv hinv hs) h

/-- C1: over every trace of interleaved store operations by multiple
workers started idle over a store with distinct job ids, the reached state
satisfies `holders_ok`: every job a worker holds (claimed and not yet
reported) is `state = processing` in the store, and no two distinct
workers hold the same job id — so at most one worker observes
`processing` for a given job at any instant, and when two workers race
for the same job exactly one wins the claim (the second claim inside a
trace cannot return a job some worker already holds, since that row is
`processing` and hence ineligible). -/
theorem no_duplicate_concurrent_execution (sys0 sys : Sys) (tr : List Act)
    (h0 : sys_init sys0) (hrun : run_trace sys0 tr = some sys) :
    holders_ok sys :=
  (run_trace_inv (sys_init_inv h0) hrun).2.2

/-- The happy-path job, pending at time 0. -/
def c1_job : Job :=
  { id := "j1", command := "echo hi", state := JState.pending, attempts := 0,
    max_retries := 3, created_at := 0, updated_at := 0,
    next_attempt_at := none, last_error := none }

/-- Two idle workers over a one-job store. -/
def c1_sys0 : Sys :=
  { store := { jobs := [c1_job], dlq := [], config := [], workers := [] },
    ws := [(1, none), (2, none)] }

/-- `c1_job` as worker 1's claim returns it. -/
def c1_claimed : Job := { c1_job with state := JState.processing }

/-- The state after worker 1 claims `j1` and worker 2's racing claim
returns none (the row is already processing). -/
def c1_final : Sys :=
  { store := { jobs := [c1_claimed], dlq := [], config := [], workers := [] },
    ws := [(1, some c1_claimed), (2, none)] }

/-- Witness for C1 at a concrete two-worker race: worker 1 claims `j1`;
worker 2's claim returns none; the final state satisfies `holders_ok`. -/
theorem no_duplicate_concurrent_execution_witness :
    sys_init c1_sys0
    ∧ run_trace c1_sys0 [Act.claim 1 0, Act.claim 2 0] = some c1_final
    ∧ holders_ok c1_final :=
  ⟨by unfold sys_init; decide, by decide,
   no_duplicate_concurrent_execution c1_sys0 c1_final [Act.claim 1 0, Act.claim 2 0]
     (by unfold sys_init; decide) (by decide)⟩

end Queuectl
